import Mathlib

/-!
Verification development for the `nscmd` namespace-based command interpreter
(source: `src/nscmd/__init__.py`, example handlers: `example/foo.py`).

The Python source is shallowly embedded: strings are Lean `String`s, Python
`list`/`dict` values are Lean lists / association lists, a handler's callable
surface (its `do_`-prefixed methods as found by `getattr` along the MRO) is an
association list from method name to a pure function, Python `None` results are
`Option.none`, and code paths that raise uncaught exceptions are modelled with
`Except.error` carrying the exception's description.  Logging calls that matter
to the claims (the `default` unknown-command handler) are modelled by returning
the list of emitted log lines alongside the result.
-/

/- ### Python string primitives

`str.split(sep)` with an explicit one-character separator, `str.strip()` /
`str.lstrip()`, `sep.join(...)`, and character slicing `s[:n]` / `s[n:]`
(Python slices strings by code points, matching `List Char`). -/

/-- Characters removed by Python `str.strip()`: space, tab, newline, carriage
return, vertical tab, form feed. -/
def isSpaceChar (c : Char) : Bool :=
  c = ' ' || c = '\t' || c = '\n' || c = '\r' || c.toNat = 11 || c.toNat = 12

/-- Python `str.split(sep)` on the character list: every occurrence of `sep`
separates fields, so repeated separators yield empty fields and the empty
string yields one empty field. -/
def pySplitChars (sep : Char) : List Char → List (List Char)
  | [] => [[]]
  | c :: cs =>
    if c = sep then [] :: pySplitChars sep cs
    else
      match pySplitChars sep cs with
      | [] => [[c]]
      | t :: ts => (c :: t) :: ts

/-- Python `s.split(sep)` for a one-character separator (the source only splits
on `CMD_DELIM = " "` and `NS_DELIM = "."`, both single characters). -/
def pySplit (sep : Char) (s : String) : List String :=
  (pySplitChars sep s.data).map String.mk

/-- Python `s.strip()`. -/
def pyStrip (s : String) : String :=
  String.mk (((s.data.dropWhile isSpaceChar).reverse.dropWhile isSpaceChar).reverse)

/-- Python `s.lstrip()`. -/
def pyLStrip (s : String) : String :=
  String.mk (s.data.dropWhile isSpaceChar)

/-- Python `sep.join(parts)`. -/
def pyJoin (sep : String) : List String → String
  | [] => ""
  | [x] => x
  | x :: xs => x ++ sep ++ pyJoin sep xs

/-- Python slice `s[0:n]`. -/
def pyTake (s : String) (n : Nat) : String := String.mk (s.data.take n)

/-- Python slice `s[n:]`. -/
def pyDrop (s : String) (n : Nat) : String := String.mk (s.data.drop n)

/- ### Data model -/

/-- A handler method (`do_...` / `help_...`): takes the argument list, returns
a result string or Python `None`. -/
abbrev Op := List String → Option String

/-- A handler instance: its callable surface, i.e. the `prefix + name` methods
reachable by `getattr`, in MRO order (own methods first, then inherited ones),
so that lookup by name realises Python attribute shadowing. -/
structure Handler where
  ops : List (String × Op)

instance : Inhabited Handler := ⟨⟨[]⟩⟩

/-- `NS_MAP`: the namespace map, a Python dict from namespace path to handler
instance, modelled as an insertion-ordered association list with unique keys. -/
abbrev NSMap := List (String × Handler)

/-- Python dict read `m[k]` / membership `k in m.keys()` (`isSome`). -/
def dictGet (m : NSMap) (k : String) : Option Handler :=
  match m with
  | [] => none
  | kv :: rest => if kv.1 = k then some kv.2 else dictGet rest k

/-- Python dict write `m[k] = v`: replace in place if the key exists (dicts
keep the original insertion position), otherwise append. -/
def dictInsert (m : NSMap) (k : String) (v : Handler) : NSMap :=
  if (dictGet m k).isSome then
    m.map (fun kv => if kv.1 = k then (k, v) else kv)
  else
    m ++ [(k, v)]

/-- Python `m.update(new)`: write every binding of `new` into `m` in order. -/
def dictUpdate (m : NSMap) : NSMap → NSMap
  | [] => m
  | kv :: rest => dictUpdate (dictInsert m kv.1 kv.2) rest

/-- `getattr` search over a handler's callable surface (first match wins,
realising MRO shadowing). -/
def opLookup : List (String × Op) → String → Option Op
  | [], _ => none
  | kv :: rest, n => if kv.1 = n then some kv.2 else opLookup rest n

/-- `MainInterpreter.name` (= the root namespace, literal `"main"`). -/
def mainName : String := "main"

/-- `MainInterpreter.prefix_cmd`. -/
def prefixCmd : String := "do_"

/- ### Namespace resolution: `MainInterpreter.__check_namespace` -/

/-- Candidate path tried by the relative pass at loop index `i`:
`tmp_ns = current_ns + NS_DELIM + NS_DELIM.join(parts[0:i+1])`. -/
def relCand (cur : String) (parts : List String) (i : Nat) : String :=
  cur ++ "." ++ pyJoin "." (parts.take (i + 1))

/-- Candidate path tried by the absolute (root) pass at loop index `i`:
`test_ns = NS_DELIM.join(parts[0:i+1])`. -/
def absCand (parts : List String) (i : Nat) : String :=
  pyJoin "." (parts.take (i + 1))

/-- The `for i in range(n): if p(i): ... else: break` pattern of
`__check_namespace`: number of loop indices accepted before the first failing
test (the `break`). -/
def nsMatchLen (p : Nat → Bool) : Nat → Nat
  | 0 => 0
  | n + 1 => if p 0 then nsMatchLen (fun i => p (i + 1)) n + 1 else 0

/-- Tokens matched by the relative pass (pass 1) of `__check_namespace`. -/
def relLen (m : NSMap) (cur : String) (parts : List String) : Nat :=
  nsMatchLen (fun i => (dictGet m (relCand cur parts i)).isSome) parts.length

/-- Tokens matched by the absolute pass (pass 2) of `__check_namespace`. -/
def absLen (m : NSMap) (parts : List String) : Nat :=
  nsMatchLen (fun i => (dictGet m (absCand parts i)).isSome) parts.length

/-- `MainInterpreter.__check_namespace(parts)` with the globals made explicit:
`m` is `NS_MAP`, `st` is `NS_STATE`.  Pass 1 grows a candidate path from the
current namespace and remembers `last_valid` / `args` at each success; on zero
matches (`last_valid == None`) pass 2 repeats the growth from the root.  If
both passes matched zero tokens the final `args = parts[i:]` executes with
`i = 0` (both loops either never ran or broke at their first index), so all
tokens are returned unchanged together with the unchanged state.  The function
always returns normally; `NS_MAP[last_valid]` cannot fail because membership
was the loop condition. -/
def checkNamespace (m : NSMap) (st : String × Handler) (parts : List String) :
    String × Handler × List String :=
  if relLen m st.1 parts = 0 then
    if absLen m parts = 0 then
      (st.1, st.2, parts)
    else
      (absCand parts (absLen m parts - 1),
       (dictGet m (absCand parts (absLen m parts - 1))).get!,
       parts.drop (absLen m parts))
  else
    (relCand st.1 parts (relLen m st.1 parts - 1),
     (dictGet m (relCand st.1 parts (relLen m st.1 parts - 1))).get!,
     parts.drop (relLen m st.1 parts))

/- ### Dispatch: `default`, `__exec`, `__cmd_parse` -/

/-- `MainInterpreter.default(cmd, args)`: logs
`Unknown command '<line>'` and returns `None`.  Result pairs the returned
value with the emitted log lines. -/
def defaultCmd (cmd : String) (args : List String) : Option String × List String :=
  (none, ["Unknown command \x27" ++ pyJoin " " (cmd :: args) ++ "\x27"])

/-- `MainInterpreter.__exec(cmd, args, prefix)`.  The first line of the body,
`prefix = self.prefix_cmd if prefix is None else prefix`, rebinds the `prefix`
parameter, and the fallback line
`return self.default(cmd, args) if prefix is None else None` tests that
rebound variable — which at that point always holds a string, never `None`.
The embedding keeps the variable in the Python value domain `Option String`
(`none` = Python `None`) so the test is written exactly as in the source.
Returns the result paired with the log lines emitted. -/
def execMethod (h : Handler) (cmd : String) (args : List String)
    (pfxParam : Option String) : Option String × List String :=
  let pfx : Option String := if pfxParam.isNone then some prefixCmd else pfxParam
  match opLookup h.ops ((pfx.getD "") ++ cmd) with
  | some f => (f args, [])
  | none => if pfx.isNone then defaultCmd cmd args else (none, [])

/-- Python `parts.remove(x)` for `x = ""`: removes the FIRST occurrence only;
the `if '' in parts:` guard makes it a no-op when absent. -/
def removeFirstEmpty : List String → List String
  | [] => []
  | x :: xs => if x = "" then xs else x :: removeFirstEmpty xs

/-- Tokenisation in `__cmd_parse`:
`parts = [part.strip() for part in data.split(CMD_DELIM)]` followed by
`if '' in parts: parts.remove('')`. -/
def tokenize (data : String) : List String :=
  removeFirstEmpty ((pySplit ' ' data).map pyStrip)

/-- `MainInterpreter.__cmd_parse(data)` with the global `NS_STATE` threaded
explicitly: returns the new session state and the command result.  Empty token
list invokes `empty()` (returns `None`, state untouched).  Otherwise
`__set_namespace` stores the resolution result into `NS_STATE`; if tokens
remain the first is executed as a command with the rest as arguments and
`NS_STATE` is restored to `saved_ns_state`, else the new namespace persists. -/
def cmdParse (m : NSMap) (st : String × Handler) (data : String) :
    (String × Handler) × Option String :=
  if tokenize data = [] then
    (st, none)
  else
    match (checkNamespace m st (tokenize data)).2.2 with
    | [] =>
      (((checkNamespace m st (tokenize data)).1,
        (checkNamespace m st (tokenize data)).2.1), none)
    | c :: args =>
      (st, (execMethod (checkNamespace m st (tokenize data)).2.1 c args none).1)

/-- The `run()` loop over a FIFO list of input lines: parse each line in turn,
appending non-`None` results to the output queue (`outqueue`). -/
def runList (m : NSMap) (st : String × Handler) :
    List String → (String × Handler) × List String
  | [] => (st, [])
  | l :: ls =>
    match cmdParse m st l with
    | (st1, none) => runList m st1 ls
    | (st1, some out) =>
      match runList m st1 ls with
      | (st2, outs) => (st2, out :: outs)

/- ### Registry construction: `MainInterpreter.__init_namespaces` -/

/- The declared handler hierarchy below a node: each handler type has a
`name` class attribute (`none` models a type that, like the `SubInterpreter`
template, leaves `name = None`), its own `prefix + name` methods, and declared
subclasses. -/
mutual
inductive HandlerTree where
  | mk (name : Option String) (ops : List (String × Op)) (subs : HandlerForest)
inductive HandlerForest where
  | nil : HandlerForest
  | cons : HandlerTree → HandlerForest → HandlerForest
end

/-- `create_namespace`: `NS_DELIM.join(nslist)` over the ancestry names (root
first).  A `None` name in the list makes Python's `str.join` raise an uncaught
`TypeError`. -/
def joinNames (names : List (Option String)) : Except String String :=
  if names.all Option.isSome then
    Except.ok (pyJoin "." (names.map (fun o => o.getD "")))
  else
    Except.error "TypeError: sequence item expected str instance, NoneType found"

/- `create_nsmap(obj)` / its recursion over `obj.__subclasses__()`.
`anc` is the ancestry name chain above the node (starting at the root
`MainInterpreter`), `inh` the methods the node inherits through its MRO.
The node seeds `current_ns = dict with its own namespace and instance` and
then performs `current_ns.update(create_nsmap(sub))` for each subclass in
order; `createNsmapForest` threads that accumulator. -/
mutual
def createNsmap (anc : List (Option String)) (inh : List (String × Op)) :
    HandlerTree → Except String NSMap
  | .mk name ops subs =>
    match joinNames (anc ++ [name]) with
    | .error e => .error e
    | .ok path =>
      createNsmapForest (anc ++ [name]) (ops ++ inh)
        [(path, Handler.mk (ops ++ inh))] subs
def createNsmapForest (anc : List (Option String)) (inh : List (String × Op))
    (acc : NSMap) : HandlerForest → Except String NSMap
  | .nil => .ok acc
  | .cons t f =>
    match createNsmap anc inh t with
    | .error e => .error e
    | .ok m1 => createNsmapForest anc inh (dictUpdate acc m1) f
end

/-- `__init_namespaces`: seed `nsmap` with the main interpreter at `"main"`,
then `nsmap.update(create_nsmap(ns))` for every declared direct subclass of
the `SubInterpreter` template (whose own methods are the main interpreter's,
inherited through the MRO). -/
def initNamespaces (mainH : Handler) (subs : HandlerForest) : Except String NSMap :=
  createNsmapForest [some "main"] mainH.ops [("main", mainH)] subs

/- ### Sub-namespace / command enumeration and completion -/

/-- `MainInterpreter.__get_subs_of_ns(search_ns, depth)`: branches of every
namespace key that starts with `search_ns`, cut to `depth` segments when a
depth is given, collected into a `set` (modelled as a deduplicated list; the
embedding only ever asks whether some member satisfies a predicate, which is
independent of the set's iteration order). -/
def getSubsOfNs (m : NSMap) (searchNs : String) (depth : Option Nat) : List String :=
  List.dedup ((m.map Prod.fst).filterMap (fun ns =>
    if pyTake ns searchNs.length = searchNs then
      some (match depth with
        | some d => pyJoin "." ((pySplit '.' (pyDrop ns (searchNs.length + 1))).take d)
        | none => pyJoin "." (pySplit '.' (pyDrop ns (searchNs.length + 1))))
    else none))

/-- `MainInterpreter.__get_cmds_of_ns(search_ns)`: names of the handler's
methods that carry the command prefix, with the prefix stripped (`dir()`
enumerates the class's attributes; the handler's op table stands in). -/
def getCmdsOfNs (m : NSMap) (searchNs : String) : List String :=
  ((dictGet m searchNs).get!.ops.map Prod.fst).filterMap (fun f =>
    if pyTake f prefixCmd.length = prefixCmd then some (pyDrop f prefixCmd.length)
    else none)

/-- `MainInterpreter.__complete_options(text, state)` with the readline state
made explicit (`lineBuffer` = `readline.get_line_buffer()`, `begidx` =
`readline.get_begidx()`).  On an empty/absent `NS_MAP` it returns `[]`.
Otherwise the source resolves the stripped line buffer, computes the
root-name candidate and (when arguments remain) the matching command names,
and then iterates over the matching sub-namespaces — whose loop body reads
`search_ns_len` and `ns`, names not defined in this scope, so Python raises
`NameError` at the first matching sub-namespace; if no sub-namespace matches
the final `return main + subs + funcs` adds the `subs` set to a list, raising
`TypeError`.  Uncaught exceptions are modelled as `Except.error`. -/
def completeOptions (m : NSMap) (st : String × Handler) (text : String)
    (lineBuffer : String) (begidx : Nat) : Except String (List String) :=
  if m.isEmpty then
    Except.ok []
  else
    let lb := pyLStrip lineBuffer
    let res := checkNamespace m st (pySplit ' ' lb)
    let searchNs := res.1
    let args := res.2.2
    let _main : List String :=
      if begidx = 0 ∧ pyTake mainName text.length = text then [mainName] else []
    let _funcs : List String :=
      if args ≠ [] then
        (getCmdsOfNs m searchNs).filter (fun f => (prefixCmd ++ text).isPrefixOf f)
      else []
    if (getSubsOfNs m searchNs none).any (fun sub => pyTake sub text.length = text) then
      Except.error "NameError: name search_ns_len is not defined"
    else
      Except.error "TypeError: can only concatenate list (not set) to list"

/- ### The example handler hierarchy (`example/foo.py`) -/

/-- `do_help`: the global help command.  Its output goes through the output
sinks directly and it returns `None`; the help-text side effect is outside
this pure model and irrelevant to the claims, which never dispatch it. -/
def doHelp : Op := fun _ => none

/-- `do_quit`: calls `sys.exit(0)`; process termination is outside the pure
model and no claim dispatches it. -/
def doQuit : Op := fun _ => none

/-- `do_exit`: delegates to `do_quit`. -/
def doExit : Op := fun _ => none

/-- `do_clear`: clears the terminal (`os.system`), returns `None`. -/
def doClear : Op := fun _ => none

/-- The `do_`-prefixed methods of `MainInterpreter`. -/
def mainOps : List (String × Op) :=
  [("do_help", doHelp), ("do_quit", doQuit), ("do_exit", doExit), ("do_clear", doClear)]

/-- The root handler instance (`self` in `MainInterpreter.__init__`). -/
def mainHandler : Handler := ⟨mainOps⟩

/-- `FooInterpreter.do_helloworld` (`example/foo.py`): returns
`"Hello, foo!"`. -/
def doHelloworld : Op := fun _ => some "Hello, foo!"

/-- `FooInterpreter`'s own methods. -/
def fooOps : List (String × Op) := [("do_helloworld", doHelloworld)]

/-- Modelled from the spec: `example/bar.py` (class `BarInterpreter`) is
referenced by `example/foo.py` but missing from the source tree.  The spec
describes it as handler `"bar"` under `foo` with no `helloworld` of its own,
so it declares no own methods and inherits `do_helloworld` from
`FooInterpreter` through the MRO. -/
def barTree : HandlerTree := .mk (some "bar") [] .nil

/-- `FooInterpreter` with its declared subclass `BarInterpreter`. -/
def fooTree : HandlerTree := .mk (some "foo") fooOps (.cons barTree .nil)

/-- The declared direct subclasses of `SubInterpreter` in the example. -/
def exampleForest : HandlerForest := .cons fooTree .nil

/-- The instantiated `foo` handler: own methods, then inherited ones. -/
def fooHandler : Handler := ⟨fooOps ++ mainOps⟩

/-- The instantiated `bar` handler: no own methods, `foo`'s MRO surface. -/
def barHandler : Handler := ⟨fooOps ++ mainOps⟩

/-- The namespace map the example hierarchy produces. -/
def exampleMap : NSMap :=
  [("main", mainHandler), ("main.foo", fooHandler), ("main.foo.bar", barHandler)]

/-- Sanity link: the registry builder produces exactly `exampleMap` from the
declared example hierarchy. -/
theorem exampleMap_from_registry :
    initNamespaces mainHandler exampleForest = Except.ok exampleMap := rfl

/- ### Spec-side rendition of the resolver (for the refinement claim C1) -/

/-- Spec wording, relative/absolute pass: "repeatedly appending the next token
(joined by `.`); continue while the growing candidate exists in NamespaceMap;
the longest such match wins" — the largest `k ≤ n` all of whose growth steps
`0, …, k-1` succeed ("always prefer the longer match"). -/
def longestMatch (p : Nat → Bool) : Nat → Nat
  | 0 => 0
  | n + 1 => if (List.range (n + 1)).all p then n + 1 else longestMatch p n

/-- Spec relative pass: longest growth from `currentNamespace`. -/
def relLenSpec (m : NSMap) (cur : String) (tokens : List String) : Nat :=
  longestMatch (fun i => (dictGet m (relCand cur tokens i)).isSome) tokens.length

/-- Spec absolute pass: longest growth from the root prefix. -/
def absLenSpec (m : NSMap) (tokens : List String) : Nat :=
  longestMatch (fun i => (dictGet m (absCand tokens i)).isSome) tokens.length

/-- `resolve(tokens, currentNamespace)` as the spec words it: relative pass
first; the absolute pass runs only when the relative pass matched zero tokens
(a match of length 0 is "no match"); if neither matched, the result is
`(currentNamespace, currentHandler, allTokens)`; a positive relative match
always takes precedence over any absolute match. -/
def resolveSpec (m : NSMap) (st : String × Handler) (tokens : List String) :
    String × Handler × List String :=
  if relLenSpec m st.1 tokens = 0 then
    if absLenSpec m tokens = 0 then
      (st.1, st.2, tokens)
    else
      (pyJoin "." (tokens.take (absLenSpec m tokens)),
       (dictGet m (pyJoin "." (tokens.take (absLenSpec m tokens)))).get!,
       tokens.drop (absLenSpec m tokens))
  else
    (st.1 ++ "." ++ pyJoin "." (tokens.take (relLenSpec m st.1 tokens)),
     (dictGet m (st.1 ++ "." ++ pyJoin "." (tokens.take (relLenSpec m st.1 tokens)))).get!,
     tokens.drop (relLenSpec m st.1 tokens))

/-- Session-state validity: the current namespace is a key of the namespace
map and the current handler is exactly the instance bound to that key. -/
def stateValid (m : NSMap) (st : String × Handler) : Prop :=
  dictGet m st.1 = some st.2

/- ### Properties of the greedy loop length -/

theorem nsMatchLen_le : ∀ (n : Nat) (p : Nat → Bool), nsMatchLen p n ≤ n
  | 0, _ => Nat.le_refl 0
  | n + 1, p => by
    cases hp : p 0
    · simp [nsMatchLen, hp]
    · simp only [nsMatchLen, hp, if_true]
      exact Nat.succ_le_succ (nsMatchLen_le n (fun i => p (i + 1)))

theorem nsMatchLen_true : ∀ (n : Nat) (p : Nat → Bool) (i : Nat),
    i < nsMatchLen p n → p i = true
  | 0, p, i, h => by simp [nsMatchLen] at h
  | n + 1, p, i, h => by
    cases hp : p 0
    · simp [nsMatchLen, hp] at h
    · simp only [nsMatchLen, hp, if_true] at h
      cases i with
      | zero => exact hp
      | succ j =>
        exact nsMatchLen_true n (fun k => p (k + 1)) j (Nat.lt_of_succ_lt_succ h)

theorem nsMatchLen_false : ∀ (n : Nat) (p : Nat → Bool),
    nsMatchLen p n < n → p (nsMatchLen p n) = false
  | 0, _, h => absurd h (Nat.lt_irrefl 0)
  | n + 1, p, h => by
    cases hp : p 0
    · simp only [nsMatchLen, hp, if_false]
      exact hp
    · have e : nsMatchLen p (n + 1) = nsMatchLen (fun i => p (i + 1)) n + 1 := by
        simp [nsMatchLen, hp]
      rw [e] at h ⊢
      exact nsMatchLen_false n (fun i => p (i + 1)) (Nat.lt_of_succ_lt_succ h)

theorem nsMatchLen_max (n : Nat) (p : Nat → Bool) (k : Nat)
    (hk : k ≤ n) (hall : ∀ i, i < k → p i = true) : k ≤ nsMatchLen p n := by
  by_contra hgt
  have h1 : nsMatchLen p n < k := Nat.lt_of_not_le hgt
  have h2 : nsMatchLen p n < n := Nat.lt_of_lt_of_le h1 hk
  have hf := nsMatchLen_false n p h2
  have ht := hall _ h1
  rw [ht] at hf
  simp at hf

theorem longestMatch_le : ∀ (n : Nat) (p : Nat → Bool), longestMatch p n ≤ n
  | 0, _ => Nat.le_refl 0
  | n + 1, p => by
    by_cases hall : (List.range (n + 1)).all p = true
    · simp [longestMatch, hall]
    · simp only [longestMatch, hall, if_false]
      exact Nat.le_succ_of_le (longestMatch_le n p)

theorem longestMatch_true : ∀ (n : Nat) (p : Nat → Bool) (i : Nat),
    i < longestMatch p n → p i = true
  | 0, p, i, h => by simp [longestMatch] at h
  | n + 1, p, i, h => by
    by_cases hall : (List.range (n + 1)).all p = true
    · simp only [longestMatch, hall, if_true] at h
      exact List.all_eq_true.mp hall i (List.mem_range.mpr h)
    · simp only [longestMatch, hall, if_false] at h
      exact longestMatch_true n p i h

theorem longestMatch_max : ∀ (n : Nat) (p : Nat → Bool) (k : Nat),
    k ≤ n → (∀ i, i < k → p i = true) → k ≤ longestMatch p n
  | 0, _, k, hk, _ => by simpa [longestMatch] using hk
  | n + 1, p, k, hk, hall => by
    by_cases hA : (List.range (n + 1)).all p = true
    · simpa [longestMatch, hA] using hk
    · have hk' : k ≤ n := by
        by_contra hgt
        have hkeq : k = n + 1 := by omega
        apply hA
        apply List.all_eq_true.mpr
        intro i hi
        exact hall i (by rw [hkeq]; exact List.mem_range.mp hi)
      simp only [longestMatch, hA, if_false]
      exact longestMatch_max n p k hk' hall

/-- The source's break-at-first-failure loop computes exactly the spec's
"longest match": the set of lengths all of whose growth steps succeed is
downward closed, so its maximum is the first failing index. -/
theorem nsMatchLen_eq_longestMatch (p : Nat → Bool) (n : Nat) :
    nsMatchLen p n = longestMatch p n :=
  Nat.le_antisymm
    (longestMatch_max n p _ (nsMatchLen_le n p) (fun i h => nsMatchLen_true n p i h))
    (nsMatchLen_max n p _ (longestMatch_le n p) (fun i h => longestMatch_true n p i h))

/-- Claim C1: `__check_namespace` implements the greedy longest-prefix
two-pass search: the relative pass greedily extends the current namespace and
the longest match wins; the absolute pass runs only when the relative pass
matched zero tokens; a positive relative match takes precedence over any
absolute match.  Stated as equality with `resolveSpec`, the resolver written
from the spec's words. -/
theorem claim_C1_resolution_greedy_two_pass (m : NSMap) (st : String × Handler)
    (parts : List String) : checkNamespace m st parts = resolveSpec m st parts := by
  have erel : relLenSpec m st.1 parts = relLen m st.1 parts :=
    (nsMatchLen_eq_longestMatch _ _).symm
  have eabs : absLenSpec m parts = absLen m parts :=
    (nsMatchLen_eq_longestMatch _ _).symm
  unfold checkNamespace resolveSpec
  rw [erel, eabs]
  by_cases h1 : relLen m st.1 parts = 0
  · by_cases h2 : absLen m parts = 0
    · simp [h1, h2]
    · have hk : absLen m parts - 1 + 1 = absLen m parts :=
        Nat.succ_pred_eq_of_pos (Nat.pos_of_ne_zero h2)
      simp [h1, h2, absCand, hk]
  · have hk : relLen m st.1 parts - 1 + 1 = relLen m st.1 parts :=
      Nat.succ_pred_eq_of_pos (Nat.pos_of_ne_zero h1)
    simp [h1, relCand, hk]

/-- Claim C4: when neither pass matches any token, resolution returns the
unchanged current namespace and handler with the entire token sequence as
remaining arguments (and, being a total function, raises no error). -/
theorem claim_C4_no_match_identity (m : NSMap) (st : String × Handler)
    (parts : List String) (h1 : relLen m st.1 parts = 0)
    (h2 : absLen m parts = 0) :
    checkNamespace m st parts = (st.1, st.2, parts) := by
  simp [checkNamespace, h1, h2]

/-- Witness for C4 at a concrete input: with the example registry and token
`zzz`, both passes match zero tokens and the whole token list comes back. -/
theorem claim_C4_no_match_identity_witness :
    relLen exampleMap "main" ["zzz"] = 0 ∧ absLen exampleMap ["zzz"] = 0 ∧
      checkNamespace exampleMap ("main", mainHandler) ["zzz"] =
        ("main", mainHandler, ["zzz"]) :=
  ⟨by decide, by decide,
    claim_C4_no_match_identity exampleMap ("main", mainHandler) ["zzz"]
      (by decide) (by decide)⟩

/-- Claim C10: the remaining-token list returned by resolution is a contiguous
suffix `parts.drop k` of the input, and the consumed prefix of `k` tokens
joined by `.` is exactly the matched path (absolute pass) or the extension of
the current namespace by that joined prefix (relative pass); `k = 0` leaves
the namespace unchanged. -/
theorem claim_C10_args_are_suffix (m : NSMap) (st : String × Handler)
    (parts : List String) :
    ∃ k, k ≤ parts.length ∧
      (checkNamespace m st parts).2.2 = parts.drop k ∧
      ((k = 0 ∧ (checkNamespace m st parts).1 = st.1 ∧
          (checkNamespace m st parts).2.1 = st.2) ∨
       (0 < k ∧ (checkNamespace m st parts).1 =
          st.1 ++ "." ++ pyJoin "." (parts.take k)) ∨
       (0 < k ∧ (checkNamespace m st parts).1 = pyJoin "." (parts.take k))) := by
  by_cases h1 : relLen m st.1 parts = 0
  · by_cases h2 : absLen m parts = 0
    · exact ⟨0, Nat.zero_le _, by simp [checkNamespace, h1, h2]⟩
    · refine ⟨absLen m parts, nsMatchLen_le _ _, ?_, ?_⟩
      · simp [checkNamespace, h1, h2]
      · refine Or.inr (Or.inr ⟨Nat.pos_of_ne_zero h2, ?_⟩)
        have hk : absLen m parts - 1 + 1 = absLen m parts :=
          Nat.succ_pred_eq_of_pos (Nat.pos_of_ne_zero h2)
        simp [checkNamespace, h1, h2, absCand, hk]
  · refine ⟨relLen m st.1 parts, nsMatchLen_le _ _, ?_, ?_⟩
    · simp [checkNamespace, h1]
    · refine Or.inr (Or.inl ⟨Nat.pos_of_ne_zero h1, ?_⟩)
      have hk : relLen m st.1 parts - 1 + 1 = relLen m st.1 parts :=
        Nat.succ_pred_eq_of_pos (Nat.pos_of_ne_zero h1)
      simp [checkNamespace, h1, relCand, hk]

/- ### Dictionary lemmas (Python dict semantics) -/

theorem dictGet_mapReplace (m : NSMap) (k k' : String) (v : Handler)
    (h : k ≠ k') :
    dictGet (m.map (fun kv => if kv.1 = k then (k, v) else kv)) k' =
      dictGet m k' := by
  induction m with
  | nil => rfl
  | cons kv rest ih =>
    by_cases hkv : kv.1 = k
    · simp [dictGet, hkv, h, ih]
    · simp [dictGet, hkv, ih]

theorem dictGet_append_single (m : NSMap) (k k' : String) (v : Handler)
    (h : k ≠ k') :
    dictGet (m ++ [(k, v)]) k' = dictGet m k' := by
  induction m with
  | nil => simp [dictGet, h]
  | cons kv rest ih => by_cases hkv : kv.1 = k' <;> simp [dictGet, hkv, ih]

theorem dictGet_insert_ne (m : NSMap) (k k' : String) (v : Handler)
    (h : k ≠ k') :
    dictGet (dictInsert m k v) k' = dictGet m k' := by
  unfold dictInsert
  by_cases hs : (dictGet m k).isSome <;>
    simp [hs, dictGet_mapReplace m k k' v h, dictGet_append_single m k k' v h]

theorem dictGet_update_ne : ∀ (new m : NSMap) (k' : String),
    (∀ kv ∈ new, kv.1 ≠ k') → dictGet (dictUpdate m new) k' = dictGet m k'
  | [], _, _, _ => rfl
  | kv :: rest, m, k', hne => by
    simp only [dictUpdate]
    rw [dictGet_update_ne rest (dictInsert m kv.1 kv.2) k'
      (fun x hx => hne x (by simp [hx]))]
    exact dictGet_insert_ne m kv.1 k' kv.2 (hne kv (by simp))

theorem dictInsert_keyPred (P : String → Prop) (m : NSMap) (k : String)
    (v : Handler) (hm : ∀ kv ∈ m, P kv.1) (hk : P k) :
    ∀ kv ∈ dictInsert m k v, P kv.1 := by
  intro kv hkv
  unfold dictInsert at hkv
  by_cases hs : (dictGet m k).isSome
  · rw [if_pos hs] at hkv
    obtain ⟨x, hx, hfx⟩ := List.mem_map.mp hkv
    by_cases hxk : x.1 = k
    · rw [if_pos hxk] at hfx
      rw [← hfx]
      exact hk
    · rw [if_neg hxk] at hfx
      rw [← hfx]
      exact hm x hx
  · rw [if_neg hs] at hkv
    rcases List.mem_append.mp hkv with hin | hin
    · exact hm kv hin
    · rw [List.mem_singleton] at hin
      rw [hin]
      exact hk

theorem dictUpdate_keyPred (P : String → Prop) : ∀ (new m : NSMap),
    (∀ kv ∈ m, P kv.1) → (∀ kv ∈ new, P kv.1) → ∀ kv ∈ dictUpdate m new, P kv.1
  | [], _, hm, _ => hm
  | x :: rest, m, hm, hnew => by
    simp only [dictUpdate]
    exact dictUpdate_keyPred P rest (dictInsert m x.1 x.2)
      (dictInsert_keyPred P m x.1 x.2 hm (hnew x (by simp)))
      (fun y hy => hnew y (by simp [hy]))

/- ### Registry construction lemmas -/

/-- Any namespace path joined from the root name plus at least one further
segment is distinct from the bare root name `"main"`. -/
theorem joinNames_ne_main (anc : List (Option String)) (name : Option String)
    (path : String)
    (h : joinNames ((some "main" :: anc) ++ [name]) = Except.ok path) :
    path ≠ "main" := by
  unfold joinNames at h
  by_cases hall : ((some "main" :: anc) ++ [name]).all Option.isSome = true
  · rw [if_pos hall] at h
    injection h with h2
    have hshape : ((some "main" :: anc) ++ [name]).map (fun o => o.getD "") =
        "main" :: (anc ++ [name]).map (fun o => o.getD "") := by
      simp
    rw [hshape] at h2
    cases hmap : (anc ++ [name]).map (fun o => o.getD "") with
    | nil => simp at hmap
    | cons y ys =>
      rw [hmap] at h2
      intro heq
      rw [← h2] at heq
      have hlen := congrArg String.length heq
      have e : pyJoin "." ("main" :: y :: ys) =
          "main" ++ "." ++ pyJoin "." (y :: ys) := rfl
      rw [e, String.length_append, String.length_append] at hlen
      have hm4 : ("main" : String).length = 4 := rfl
      have hd1 : ("." : String).length = 1 := rfl
      rw [hm4, hd1] at hlen
      omega
  · rw [if_neg hall] at h
    exact absurd h (by simp)

mutual
theorem createNsmap_keys : ∀ (t : HandlerTree) (anc : List (Option String))
    (inh : List (String × Op)) (res : NSMap),
    createNsmap (some "main" :: anc) inh t = Except.ok res →
    ∀ kv ∈ res, kv.1 ≠ "main"
  | .mk name ops subs, anc, inh, res, h => by
    unfold createNsmap at h
    cases hj : joinNames ((some "main" :: anc) ++ [name]) with
    | error e =>
      rw [hj] at h
      exact absurd h (by simp)
    | ok path =>
      rw [hj] at h
      have hpath : path ≠ "main" := joinNames_ne_main anc name path hj
      have hanc : (some "main" :: anc) ++ [name] =
          some "main" :: (anc ++ [name]) := by simp
      rw [hanc] at h
      exact createNsmapForest_keys subs (anc ++ [name]) (ops ++ inh)
        [(path, Handler.mk (ops ++ inh))] res h
        (by
          intro kv hkv
          rw [List.mem_singleton] at hkv
          rw [hkv]
          exact hpath)
theorem createNsmapForest_keys : ∀ (f : HandlerForest)
    (anc : List (Option String)) (inh : List (String × Op)) (acc res : NSMap),
    createNsmapForest (some "main" :: anc) inh acc f = Except.ok res →
    (∀ kv ∈ acc, kv.1 ≠ "main") → ∀ kv ∈ res, kv.1 ≠ "main"
  | .nil, _, _, acc, res, h, hacc => by
    unfold createNsmapForest at h
    injection h with h2
    rw [← h2]
    exact hacc
  | .cons t f, anc, inh, acc, res, h, hacc => by
    unfold createNsmapForest at h
    cases hm : createNsmap (some "main" :: anc) inh t with
    | error e =>
      rw [hm] at h
      exact absurd h (by simp)
    | ok m1 =>
      rw [hm] at h
      exact createNsmapForest_keys f anc inh (dictUpdate acc m1) res h
        (dictUpdate_keyPred (fun k => k ≠ "main") m1 acc hacc
          (createNsmap_keys t anc inh m1 hm))
end

theorem createNsmapForest_preserves_main : ∀ (f : HandlerForest)
    (anc : List (Option String)) (inh : List (String × Op)) (acc res : NSMap),
    createNsmapForest (some "main" :: anc) inh acc f = Except.ok res →
    dictGet res "main" = dictGet acc "main"
  | .nil, _, _, _, res, h => by
    unfold createNsmapForest at h
    injection h with h2
    rw [← h2]
  | .cons t f, anc, inh, acc, res, h => by
    unfold createNsmapForest at h
    cases hm : createNsmap (some "main" :: anc) inh t with
    | error e =>
      rw [hm] at h
      exact absurd h (by simp)
    | ok m1 =>
      rw [hm] at h
      rw [createNsmapForest_preserves_main f anc inh (dictUpdate acc m1) res h]
      exact dictGet_update_ne m1 acc "main" (createNsmap_keys t anc inh m1 hm)

/- ### Session-state lemmas and claims C9 / C2 -/

theorem opt_eq_some_get (o : Option Handler) (h : o.isSome = true) :
    o = some o.get! := by
  cases o with
  | none => simp at h
  | some v => rfl

/-- `__check_namespace` only ever returns the unchanged (valid) state or a
binding read off the namespace map. -/
theorem checkNamespace_valid (m : NSMap) (st : String × Handler)
    (parts : List String) (h : stateValid m st) :
    dictGet m (checkNamespace m st parts).1 =
      some (checkNamespace m st parts).2.1 := by
  by_cases h1 : relLen m st.1 parts = 0
  · by_cases h2 : absLen m parts = 0
    · simpa [checkNamespace, h1, h2] using h
    · have hlt : absLen m parts - 1 < absLen m parts :=
        Nat.sub_lt (Nat.pos_of_ne_zero h2) Nat.one_pos
      have hs := nsMatchLen_true parts.length
        (fun i => (dictGet m (absCand parts i)).isSome)
        (absLen m parts - 1) hlt
      simp [checkNamespace, h1, h2]
      exact opt_eq_some_get _ hs
  · have hlt : relLen m st.1 parts - 1 < relLen m st.1 parts :=
      Nat.sub_lt (Nat.pos_of_ne_zero h1) Nat.one_pos
    have hs := nsMatchLen_true parts.length
      (fun i => (dictGet m (relCand st.1 parts i)).isSome)
      (relLen m st.1 parts - 1) hlt
    simp [checkNamespace, h1]
    exact opt_eq_some_get _ hs

/-- `__check_namespace` on an empty token list matches nothing. -/
theorem checkNamespace_nil (m : NSMap) (st : String × Handler) :
    checkNamespace m st [] = (st.1, st.2, []) := by
  simp [checkNamespace, relLen, absLen, nsMatchLen]

/-- Claim C9: session-state validity is an invariant: after interpreter
construction the state `("main", mainHandler)` is a binding of the built map,
and `__cmd_parse` maps a valid state to a valid state on every command line
(the state is either kept, restored to the saved value, or set to a binding
read off the namespace map). -/
theorem claim_C9_state_validity_invariant :
    (∀ (mainH : Handler) (subs : HandlerForest) (m : NSMap),
        initNamespaces mainH subs = Except.ok m →
        stateValid m ("main", mainH)) ∧
    (∀ (m : NSMap) (st : String × Handler) (line : String),
        stateValid m st → stateValid m (cmdParse m st line).1) := by
  constructor
  · intro mainH subs m h
    have hpres := createNsmapForest_preserves_main subs [] mainH.ops
      [("main", mainH)] m h
    unfold stateValid
    rw [hpres]
    simp [dictGet]
  · intro m st line hv
    unfold cmdParse
    by_cases hp : tokenize line = []
    · simpa [hp] using hv
    · simp only [hp, if_false, if_neg hp]
      cases hrem : (checkNamespace m st (tokenize line)).2.2 with
      | nil =>
        simp only [hrem]
        exact checkNamespace_valid m st (tokenize line) hv
      | cons c args =>
        simp only [hrem]
        exact hv

/-- Witness for C9: the construction clause applied to the example hierarchy,
and the preservation clause applied to a concrete line. -/
theorem claim_C9_state_validity_invariant_witness :
    stateValid exampleMap ("main", mainHandler) ∧
      stateValid exampleMap
        (cmdParse exampleMap ("main", mainHandler) "main foo").1 :=
  ⟨claim_C9_state_validity_invariant.1 mainHandler exampleForest exampleMap rfl,
   claim_C9_state_validity_invariant.2 exampleMap ("main", mainHandler)
     "main foo" rfl⟩

/-- Claim C2: a command line whose resolution leaves at least one trailing
token leaves the session state as it was before processing; a line whose
resolution consumes every token leaves the session state at the resolved
namespace and handler. -/
theorem claim_C2_state_frame (m : NSMap) (st : String × Handler)
    (line : String) :
    ((checkNamespace m st (tokenize line)).2.2 ≠ [] →
      (cmdParse m st line).1 = st) ∧
    ((checkNamespace m st (tokenize line)).2.2 = [] →
      (cmdParse m st line).1 =
        ((checkNamespace m st (tokenize line)).1,
         (checkNamespace m st (tokenize line)).2.1)) := by
  unfold cmdParse
  by_cases hp : tokenize line = []
  · constructor
    · intro hne
      rw [hp, checkNamespace_nil] at hne
      exact absurd rfl hne
    · intro _
      simp [hp, checkNamespace_nil]
  · constructor
    · intro hne
      simp only [hp, if_false, if_neg hp]
      cases hrem : (checkNamespace m st (tokenize line)).2.2 with
      | nil => exact absurd hrem hne
      | cons c args => simp [hrem]
    · intro hnil
      simp only [hp, if_false, if_neg hp]
      cases hrem : (checkNamespace m st (tokenize line)).2.2 with
      | nil => simp [hrem]
      | cons c args =>
        rw [hrem] at hnil
        exact absurd hnil (by simp)

/-- Witness for C2: with the example registry, `helloworld x` keeps two
trailing tokens (state restored) and `main foo` consumes every token (state
moves to the resolved namespace). -/
theorem claim_C2_state_frame_witness :
    ((checkNamespace exampleMap ("main", mainHandler)
        (tokenize "helloworld x")).2.2 ≠ [] ∧
      (cmdParse exampleMap ("main", mainHandler) "helloworld x").1 =
        ("main", mainHandler)) ∧
    ((checkNamespace exampleMap ("main", mainHandler)
        (tokenize "main foo")).2.2 = [] ∧
      (cmdParse exampleMap ("main", mainHandler) "main foo").1 =
        ((checkNamespace exampleMap ("main", mainHandler)
            (tokenize "main foo")).1,
         (checkNamespace exampleMap ("main", mainHandler)
            (tokenize "main foo")).2.1)) :=
  ⟨⟨by decide,
    (claim_C2_state_frame exampleMap ("main", mainHandler) "helloworld x").1
      (by decide)⟩,
   ⟨by decide,
    (claim_C2_state_frame exampleMap ("main", mainHandler) "main foo").2
      (by decide)⟩⟩

/- ### Claim C3: the example session -/

/-- Claim C3: with handlers main / foo (exposing `helloworld`) / bar (no own
`helloworld`), the input lines `main foo`, `helloworld`,
`main foo bar helloworld` produce exactly `Hello, foo!` twice: line 1 only
navigates into `main.foo` (no output), line 2 executes `helloworld` there,
line 3 resolves into `main.foo.bar` and executes `helloworld` inherited from
foo. -/
theorem claim_C3_example_session :
    (runList exampleMap ("main", mainHandler)
        ["main foo", "helloworld", "main foo bar helloworld"]).2 =
      ["Hello, foo!", "Hello, foo!"] ∧
    cmdParse exampleMap ("main", mainHandler) "main foo" =
      (("main.foo", fooHandler), none) ∧
    cmdParse exampleMap ("main.foo", fooHandler) "helloworld" =
      (("main.foo", fooHandler), some "Hello, foo!") ∧
    checkNamespace exampleMap ("main.foo", fooHandler)
        (tokenize "main foo bar helloworld") =
      ("main.foo.bar", barHandler, ["helloworld"]) ∧
    cmdParse exampleMap ("main.foo", fooHandler) "main foo bar helloworld" =
      (("main.foo", fooHandler), some "Hello, foo!") :=
  ⟨rfl, rfl, rfl, rfl, rfl⟩

/- ### Claim C5: unknown-command dispatch -/

/-- Claim C5 (evaluation at the failing input): dispatching the unknown
command `zzz` on the root handler with the command prefix returns `None`
without emitting any log line — the `default` unknown-command handler is
never reached, because `__exec` tests `prefix is None` after `prefix` has
been rebound to `prefix_cmd`.  The second conjunct shows what `default`
would have produced had it been routed to. -/
theorem claim_C5_unknown_command_eval :
    execMethod mainHandler "zzz" [] none = (none, []) ∧
    defaultCmd "zzz" [] = (none, ["Unknown command \x27zzz\x27"]) :=
  ⟨rfl, rfl⟩

/- ### Claim C6: tokenisation -/

/-- Number of empty tokens in a token list. -/
def countEmpty : List String → Nat
  | [] => 0
  | x :: xs => (if x = "" then 1 else 0) + countEmpty xs

theorem countEmpty_removeFirstEmpty : ∀ (l : List String),
    countEmpty (removeFirstEmpty l) = countEmpty l - 1
  | [] => rfl
  | x :: xs => by
    by_cases hx : x = ""
    · simp [removeFirstEmpty, countEmpty, hx]
    · simp only [removeFirstEmpty, hx, if_false, if_neg hx, countEmpty,
        countEmpty_removeFirstEmpty xs]
      have h0 : countEmpty (x :: xs) = countEmpty xs := by
        simp [countEmpty, hx]
      omega

/-- Counterexample to claim C6: the line `a  b  c` (two double spaces)
tokenises to a list that still contains an empty token — `list.remove` drops
only the first empty string. -/
theorem claim_C6_counterexample :
    "" ∈ tokenize "a  b  c" ∧ tokenize "a  b  c" = ["a", "b", "", "c"] :=
  ⟨by decide, by decide⟩

theorem countEmpty_eq_zero_iff : ∀ (l : List String),
    countEmpty l = 0 ↔ "" ∉ l
  | [] => by simp [countEmpty]
  | x :: xs => by
    by_cases hx : x = ""
    · subst hx
      simp [countEmpty]
    · simp [countEmpty, hx, countEmpty_eq_zero_iff xs, Ne.symm hx]

/-- Claim C6 as amended: tokenisation splits the line on the single-space
delimiter, strips each token, and then drops exactly one empty token when any
are present (the first occurrence), so the number of empty tokens handed to
resolution is one less than the split produced; the token list contains no
empty token exactly when the split produced at most one (any line whose
consecutive spaces produce two or more empty tokens keeps some). -/
theorem claim_C6_amended_single_removal (data : String) :
    countEmpty (tokenize data) =
      countEmpty ((pySplit ' ' data).map pyStrip) - 1 ∧
    ("" ∉ tokenize data ↔
      countEmpty ((pySplit ' ' data).map pyStrip) ≤ 1) := by
  have h1 : countEmpty (tokenize data) =
      countEmpty ((pySplit ' ' data).map pyStrip) - 1 :=
    countEmpty_removeFirstEmpty _
  refine ⟨h1, ?_⟩
  rw [← countEmpty_eq_zero_iff, h1]
  omega

/- ### Claim C7: registry validation -/

/-- A command op distinguishing the first duplicate handler type. -/
def opA : Op := fun _ => some "A"

/-- A command op distinguishing the second duplicate handler type. -/
def opB : Op := fun _ => some "B"

/-- Two distinct handler types that both resolve to the path `main.foo`. -/
def dupForest : HandlerForest :=
  .cons (.mk (some "foo") [("do_a", opA)] .nil)
    (.cons (.mk (some "foo") [("do_b", opB)] .nil) .nil)

/-- A non-root handler type that leaves `name = None`. -/
def noNameForest : HandlerForest := .cons (.mk none [] .nil) .nil

/-- Counterexample to claim C7: registry construction SUCCEEDS on a declared
hierarchy in which two distinct handler types resolve to the same
NamespacePath — the code performs no duplicate check and defines no
ConfigurationError. -/
theorem claim_C7_counterexample :
    (initNamespaces mainHandler dupForest).isOk = true := rfl

/-- Claim C7 as amended: registry construction never raises a
ConfigurationError.  Two distinct handler types resolving to the same
NamespacePath are silently collapsed into one entry, the later-instantiated
handler overwriting the earlier one in place; a non-root type lacking a name
aborts construction with an uncaught TypeError raised by joining a `None`
name into the path. -/
theorem claim_C7_amended_no_validation :
    initNamespaces mainHandler dupForest =
      Except.ok [("main", mainHandler),
        ("main.foo", Handler.mk ([("do_b", opB)] ++ mainOps))] ∧
    initNamespaces mainHandler noNameForest =
      Except.error "TypeError: sequence item expected str instance, NoneType found" :=
  ⟨rfl, rfl⟩

/- ### Claim C8: completion engine -/

/-- Claim C8 (evaluation at the failing input): on the example registry with
partial text `""` and empty line buffer at the start of the line, the
completion function raises `NameError` (its sub-namespace loop body reads
names that are not defined in its scope); only on an empty namespace map does
it return a list, the empty one. -/
theorem claim_C8_completion_eval :
    completeOptions exampleMap ("main", mainHandler) "" "" 0 =
      Except.error "NameError: name search_ns_len is not defined" ∧
    completeOptions [] ("main", mainHandler) "x" "x" 0 = Except.ok [] :=
  ⟨rfl, rfl⟩
